import Mathlib

/-!
Shallow embedding of `pkg/logging/logging.go` (package `logging`), a
configuration wrapper around the zap structured-logging library, together
with theorems settling the specification claims about it.

Modelling conventions:
* A zap logger is modelled by the configuration this package chooses for it:
  the selected encoder, the debug options, the minimum level, and the list of
  base fields attached with `Logger.With` (zap's `With` appends fields to a
  derived logger; the order of appends is preserved).
* Ambient process state read by the Go code is passed explicitly: the
  environment is a total function `String → String` (Go's `os.Getenv` returns
  the empty string for unset variables), the hostname lookup result is an
  `Option String` (`none` models `os.Hostname` returning an error), and the
  pid is an `Int`.
* `zapcore.Level` is an integer type in Go (`int8`); levels are modelled as
  `Int` with the zapcore constant values.
* Go's `(value, error)` return of `FindLogLevel` is modelled as a pair
  `Int × Option String` keeping both components, exactly as the source
  returns them (`(-1, an error)` on failure).
* Go's `strings.ToUpper` is modelled character-wise with `Char.toUpper`,
  which performs the ASCII case mapping; all level names matched by the
  source are ASCII.
-/

namespace Logging

/-- Source constant `RequestIDHeader = "X-Request-Id"`. -/
def RequestIDHeader : String := "X-Request-Id"

/-- Source constant `requestIDField = "reqId"` (aligned with fastify). -/
def requestIDField : String := "reqId"

/-- Source constant `WgCloudEnvironmentID`. -/
def WgCloudEnvironmentID : String := "WG_CLOUD_ENVIRONMENT_ID"

/-- Source constant `WgCloudProjectID`. -/
def WgCloudProjectID : String := "WG_CLOUD_PROJECT_ID"

/-- Source constant `WgCloudDeploymentID`. -/
def WgCloudDeploymentID : String := "WG_CLOUD_DEPLOYMENT_ID"

/-- zapcore.DebugLevel = -1. -/
def DebugLevel : Int := -1

/-- zapcore.InfoLevel = 0. -/
def InfoLevel : Int := 0

/-- zapcore.WarnLevel = 1 (the "warn" severity). -/
def WarnLevel : Int := 1

/-- zapcore.ErrorLevel = 2. -/
def ErrorLevel : Int := 2

/-- zapcore.PanicLevel = 4. -/
def PanicLevel : Int := 4

/-- zapcore.FatalLevel = 5. -/
def FatalLevel : Int := 5

/-- Value carried by a zap field, as used by this package (`zap.String` and
`zap.Int` are the only field constructors the source calls). -/
inductive FieldVal where
  | str (s : String)
  | int (n : Int)
deriving DecidableEq

/-- A zap field: a key paired with its value. -/
abbrev Field := String × FieldVal

/-- Model of `zap.String(key, value)`. -/
def zapStr (key value : String) : Field := (key, FieldVal.str value)

/-- Model of `zap.Int(key, value)`. -/
def zapInt (key : String) (value : Int) : Field := (key, FieldVal.int value)

/-- Which encoder `newZapLogger` selects: `newPrettyEncoder()` (console
encoder for humans) or `zapJsonEncoder()` (structured JSON encoder). -/
inductive EncoderKind where
  | pretty
  | json
deriving DecidableEq

/-- Model of a `*zap.Logger` as configured by this package: the encoder, the
options added when `debug` is set (`zap.AddStacktrace(zap.ErrorLevel)` and
`zap.AddCaller()`), the minimum level, and the fields attached via `With`. -/
structure ZapLogger where
  encoder : EncoderKind
  addStacktraceFromErrorLevel : Bool
  addCaller : Bool
  level : Int
  fields : List Field
deriving DecidableEq

/-- Model of zap's `Logger.With(fields...)`: a derived logger carrying the
extra fields appended after the existing ones. -/
def loggerWith (logger : ZapLogger) (fs : List Field) : ZapLogger :=
  { logger with fields := logger.fields ++ fs }

/-- Model of `attachBaseFields` (logging.go lines 57-84). `env` models
`os.Getenv` (empty string when unset), `hostnameResult` models
`os.Hostname()` (`none` when it returns an error), `pid` models
`os.Getpid()`. Note the source gates the `deploymentID` field on
`projectID != ""`, not on its own variable. -/
def attachBaseFields (env : String → String) (hostnameResult : Option String)
    (pid : Int) (logger : ZapLogger) : ZapLogger :=
  let host := match hostnameResult with
    | some h => h
    | none => "unknown"
  let logger := loggerWith logger [zapStr "hostname" host, zapInt "pid" pid]
  let environmentID := env WgCloudEnvironmentID
  let logger := if environmentID ≠ "" then
      loggerWith logger [zapStr "environmentID" environmentID]
    else logger
  let projectID := env WgCloudProjectID
  let logger := if projectID ≠ "" then
      loggerWith logger [zapStr "projectID" projectID]
    else logger
  let deploymentID := env WgCloudDeploymentID
  let logger := if projectID ≠ "" then
      loggerWith logger [zapStr "deploymentID" deploymentID]
    else logger
  logger

/-- Model of `newZapLogger` (logging.go lines 86-114): selects the encoder,
adds the debug options, builds the logger, and attaches base fields unless
`prettyLogging` is set, in which case the logger is returned as-is. -/
def newZapLogger (env : String → String) (hostnameResult : Option String)
    (pid : Int) (prettyLogging debug : Bool) (level : Int) : ZapLogger :=
  let encoder := if prettyLogging then EncoderKind.pretty else EncoderKind.json
  let zapLogger : ZapLogger :=
    { encoder := encoder
      addStacktraceFromErrorLevel := debug
      addCaller := debug
      level := level
      fields := [] }
  if prettyLogging then zapLogger
  else attachBaseFields env hostnameResult pid zapLogger

/-- Model of `New` (logging.go lines 35-37): `newZapLogger` bound to stdout,
with the ambient process state passed explicitly. -/
def New (env : String → String) (hostnameResult : Option String) (pid : Int)
    (prettyLogging debug : Bool) (level : Int) : ZapLogger :=
  newZapLogger env hostnameResult pid prettyLogging debug level

/-- Model of Go's `strings.ToUpper` restricted to the ASCII case mapping
(`Char.toUpper` maps `a`-`z` to `A`-`Z` and fixes everything else); the six
level names the source compares against are ASCII. -/
def goToUpper (s : String) : String := String.mk (s.data.map Char.toUpper)

/-- Model of `FindLogLevel` (logging.go lines 116-133): a switch on
`strings.ToUpper(logLevel)`. The Go function returns the pair
`(zapcore.Level, error)`; the error is `none` on success and carries the
message of `fmt.Errorf("unknown log level: %s", logLevel)` on failure,
where the failure value of the level component is `-1`. -/
def FindLogLevel (logLevel : String) : Int × Option String :=
  let up := goToUpper logLevel
  if up = "DEBUG" then (DebugLevel, none)
  else if up = "INFO" then (InfoLevel, none)
  else if up = "WARNING" then (WarnLevel, none)
  else if up = "ERROR" then (ErrorLevel, none)
  else if up = "FATAL" then (FatalLevel, none)
  else if up = "PANIC" then (PanicLevel, none)
  else (-1, some ("unknown log level: " ++ logLevel))

/-- A value stored in a context under the private `RequestIDKey{}` key:
either a string or a value of some other type (Go stores `any`). -/
inductive CtxVal where
  | str (s : String)
  | nonStringValue
deriving DecidableEq

/-- Model of a non-nil `context.Context` as seen through the single private
key this package uses: `requestIDValue` is the value `ctx.Value(RequestIDKey{})`
would return (`none` models a `nil` lookup result, i.e. the key was never
set). A nil context is modelled by `Option Context` at the call sites. -/
structure Context where
  requestIDValue : Option CtxVal
deriving DecidableEq

/-- Model of `RequestIDFromContext` (logging.go lines 135-145): returns the
stored string, or the empty string when the context is nil, the key is
unset, or the type assertion `.(string)` fails. -/
def RequestIDFromContext : Option Context → String
  | none => ""
  | some ctx =>
    match ctx.requestIDValue with
    | some (CtxVal.str requestID) => requestID
    | _ => ""

/-- Model of `WithRequestID` (logging.go lines 147-149). -/
def WithRequestID (reqID : String) : Field := zapStr requestIDField reqID

/-- Model of `WithRequestIDFromContext` (logging.go lines 151-153). -/
def WithRequestIDFromContext (ctx : Option Context) : Field :=
  WithRequestID (RequestIDFromContext ctx)

/-- The switch table of `FindLogLevel`: each supported name with the level
the source returns for it. -/
def levelTable : List (String × Int) :=
  [("DEBUG", DebugLevel), ("INFO", InfoLevel), ("WARNING", WarnLevel),
   ("ERROR", ErrorLevel), ("FATAL", FatalLevel), ("PANIC", PanicLevel)]

/-- The six supported level names. -/
def levelNames : List String :=
  ["DEBUG", "INFO", "WARNING", "ERROR", "FATAL", "PANIC"]

/-- Two strings are letter-case variants of each other when they agree
character by character up to case. -/
def caseVariant (s t : String) : Prop :=
  s.data.map Char.toUpper = t.data.map Char.toUpper

instance (s t : String) : Decidable (caseVariant s t) := by
  unfold caseVariant; infer_instance

/-- Round `n / d` to the nearest integer with ties to even (`d > 0`): the
rounding IEEE-754 applies to an exact quotient when fitting it into a
binary64 significand. -/
def rte (n d : ℕ) : ℕ :=
  let q := n / d
  let r := n % d
  if 2 * r < d then q
  else if d < 2 * r then q + 1
  else if q % 2 = 0 then q else q + 1

/-- Floor of the base-2 logarithm, computed structurally on an explicit fuel
argument so the kernel can evaluate it on large literals. -/
def log2fuel : ℕ → ℕ → ℕ
  | 0, _ => 0
  | fuel + 1, n => if n ≤ 1 then 0 else log2fuel fuel (n / 2) + 1

/-- Floor of the base-2 logarithm of `n` (zero for `n = 0`); `n` itself is
always enough fuel. -/
def floorLog2 (n : ℕ) : ℕ := log2fuel n n

/-- Nearest IEEE-754 binary64 value to a natural number (53-bit significand,
round to nearest, ties to even): the exact value of Go's int64-to-float64
conversion `float64(nanos)` for the magnitudes an `int64` can hold. Values
below `2^53` are exactly representable. -/
def roundNat53 (n : ℕ) : ℕ :=
  if n < 2 ^ 53 then n
  else
    let e := floorLog2 n - 52
    rte n (2 ^ e) * 2 ^ e

/-- Value of `int64(math.Trunc(x / y))` where `x` and `y` are binary64
values holding the naturals `a` and `b` exactly (`b > 0`, magnitudes in the
int64 range, so no overflow or subnormals arise): the IEEE-754 division
rounds the exact quotient `a / b` to the nearest binary64 value (ties to
even) and `math.Trunc` then truncates it toward zero. For `a < b` the
rounded quotient is below one unless `a / b` is within half an ulp of one;
otherwise the quotient is scaled so its significand holds 53 bits, rounded
with `rte`, and the result is truncated back. -/
def truncFdivPos (a b : ℕ) : ℕ :=
  if a = 0 then 0
  else if a < b then (if b * (2 ^ 54 - 1) ≤ a * 2 ^ 54 then 1 else 0)
  else
    let e := floorLog2 (a / b)
    if e ≤ 52 then rte (a * 2 ^ (52 - e)) b / 2 ^ (52 - e)
    else rte a (b * 2 ^ (e - 52)) * 2 ^ (e - 52)

/-- Model of the `EncodeTime` closure installed by `zapJsonEncoder`
(logging.go lines 46-55): the Go code computes
`millis := int64(math.Trunc(float64(t.UnixNano()) / float64(time.Millisecond)))`
and appends `millis`. `time.Millisecond` is `10^6` (exact in binary64); the
nanosecond count is converted to float64 (`roundNat53` on the magnitude,
IEEE conversion being sign-symmetric), divided, truncated toward zero and
converted back (`truncFdivPos` on the magnitude). -/
def encodeTimeMillis (nanos : Int) : Int :=
  let a := roundNat53 nanos.natAbs
  let millis := truncFdivPos a 1000000
  if nanos < 0 then -(millis : Int) else (millis : Int)

/-- Environment with only `WG_CLOUD_DEPLOYMENT_ID` set (used to witness the
deploymentID gating claim). -/
def envOnlyDeployment : String → String :=
  fun key => if key = WgCloudDeploymentID then "dep-1" else ""

/-- Environment with only `WG_CLOUD_PROJECT_ID` set (used to witness the
empty-deploymentID emission claim). -/
def envOnlyProject : String → String :=
  fun key => if key = WgCloudProjectID then "proj-1" else ""

end Logging

namespace Logging

/-- C1: with `WG_CLOUD_PROJECT_ID` unset or empty and `WG_CLOUD_DEPLOYMENT_ID`
non-empty, a non-pretty logger built by `New` carries no `deploymentID`
field: the field is gated on the `projectID` variable being non-empty, not
on its own variable. -/
theorem deploymentID_absent_when_projectID_empty
    (env : String → String) (hostnameResult : Option String) (pid : Int)
    (debug : Bool) (level : Int)
    (hproj : env WgCloudProjectID = "")
    (hdep : env WgCloudDeploymentID ≠ "") :
    "deploymentID" ∉
      (New env hostnameResult pid false debug level).fields.map Prod.fst := by
  simp only [New, newZapLogger, attachBaseFields, loggerWith, zapStr, zapInt,
    hproj, Bool.false_eq_true, if_false, ne_eq, not_true_eq_false,
    not_false_eq_true, if_neg]
  split_ifs <;> simp

/-- Witness for C1 at a concrete environment where only the deployment
variable is set. -/
theorem deploymentID_absent_when_projectID_empty_witness :
    envOnlyDeployment WgCloudProjectID = "" ∧
    envOnlyDeployment WgCloudDeploymentID ≠ "" ∧
    "deploymentID" ∉
      (New envOnlyDeployment (some "host-a") 42 false false 0).fields.map
        Prod.fst :=
  ⟨by decide, by decide,
    deploymentID_absent_when_projectID_empty envOnlyDeployment (some "host-a")
      42 false 0 (by decide) (by decide)⟩

/-- C2: for every supported level name and every letter-case variant of it,
`FindLogLevel` returns the corresponding level and no error; in particular
every case variant of `WARNING` maps to `WarnLevel` (the "warn" severity). -/
theorem findLogLevel_case_insensitive
    (s name : String) (lvl : Int)
    (hmem : (name, lvl) ∈ levelTable) (hcase : caseVariant s name) :
    FindLogLevel s = (lvl, none) := by
  unfold caseVariant at hcase
  simp only [levelTable, List.mem_cons, List.not_mem_nil, or_false,
    Prod.mk.injEq] at hmem
  rcases hmem with ⟨rfl, rfl⟩ | ⟨rfl, rfl⟩ | ⟨rfl, rfl⟩ | ⟨rfl, rfl⟩ |
    ⟨rfl, rfl⟩ | ⟨rfl, rfl⟩
  · have hup : goToUpper s = "DEBUG" := by unfold goToUpper; rw [hcase]; decide
    simp only [FindLogLevel, hup, reduceIte]
  · have hup : goToUpper s = "INFO" := by unfold goToUpper; rw [hcase]; decide
    simp only [FindLogLevel, hup, reduceIte]; decide
  · have hup : goToUpper s = "WARNING" := by
      unfold goToUpper; rw [hcase]; decide
    simp only [FindLogLevel, hup, reduceIte]; decide
  · have hup : goToUpper s = "ERROR" := by unfold goToUpper; rw [hcase]; decide
    simp only [FindLogLevel, hup, reduceIte]; decide
  · have hup : goToUpper s = "FATAL" := by unfold goToUpper; rw [hcase]; decide
    simp only [FindLogLevel, hup, reduceIte]; decide
  · have hup : goToUpper s = "PANIC" := by unfold goToUpper; rw [hcase]; decide
    simp only [FindLogLevel, hup, reduceIte]; decide

/-- Witness for C2: the mixed-case variant `wArNiNg` of `WARNING` maps to
the warn severity with no error. -/
theorem findLogLevel_case_insensitive_witness :
    ("WARNING", WarnLevel) ∈ levelTable ∧ caseVariant "wArNiNg" "WARNING" ∧
    FindLogLevel "wArNiNg" = (WarnLevel, none) :=
  ⟨by decide, by decide,
    findLogLevel_case_insensitive "wArNiNg" "WARNING" WarnLevel (by decide)
      (by decide)⟩

/-- C3: for every input whose uppercasing matches none of the six supported
names, `FindLogLevel` returns an error whose message contains the offending
input verbatim, and no fallback level is returned as success. -/
theorem findLogLevel_unknown_error
    (s : String) (h : goToUpper s ∉ levelNames) :
    ∃ msg, FindLogLevel s = (-1, some msg) ∧
      ∃ before after, msg = before ++ s ++ after := by
  simp only [levelNames, List.mem_cons, List.not_mem_nil, or_false, not_or]
    at h
  obtain ⟨h1, h2, h3, h4, h5, h6⟩ := h
  refine ⟨"unknown log level: " ++ s, ?_, "unknown log level: ", "", ?_⟩
  · unfold FindLogLevel
    rw [if_neg h1, if_neg h2, if_neg h3, if_neg h4, if_neg h5, if_neg h6]
  · exact (String.append_empty _).symm

/-- Witness for C3 at the spec's example input `nonsense`. -/
theorem findLogLevel_unknown_error_witness :
    goToUpper "nonsense" ∉ levelNames ∧
    ∃ msg, FindLogLevel "nonsense" = (-1, some msg) ∧
      ∃ before after, msg = before ++ "nonsense" ++ after :=
  ⟨by decide, findLogLevel_unknown_error "nonsense" (by decide)⟩

/-- C5: `RequestIDFromContext` never fails: it returns the stored string
when one is set under the private key, and the empty string when the
context is nil, the key was never set, or the stored value is not a string
(totality is expressed by the function's type `Option Context → String`,
with no error component). -/
theorem requestID_from_context_defaults :
    RequestIDFromContext none = "" ∧
    (∀ v : String,
      RequestIDFromContext (some ⟨some (CtxVal.str v)⟩) = v) ∧
    RequestIDFromContext (some ⟨none⟩) = "" ∧
    RequestIDFromContext (some ⟨some CtxVal.nonStringValue⟩) = "" :=
  ⟨rfl, fun _ => rfl, rfl, rfl⟩

/-- C6: `WithRequestID id` is the single structured field keyed exactly
`reqId` holding `id`. -/
theorem withRequestID_reqId_field (id : String) :
    WithRequestID id = ("reqId", FieldVal.str id) := rfl

/-- C7: `WithRequestIDFromContext` is the composition of `WithRequestID`
with `RequestIDFromContext`. -/
theorem withRequestIDFromContext_composes (ctx : Option Context) :
    WithRequestIDFromContext ctx =
      WithRequestID (RequestIDFromContext ctx) := rfl

/-- C8: a logger constructed with `prettyLogging = true` is returned with no
base-field attachment, for every debug flag, level and environment state:
its field list is empty, so it never carries the hostname/pid/cloud-ID
field set of a non-pretty logger. -/
theorem pretty_logger_no_base_fields
    (env : String → String) (hostnameResult : Option String) (pid : Int)
    (debug : Bool) (level : Int) :
    (New env hostnameResult pid true debug level).fields = [] := rfl

/-- C9: when the hostname lookup fails (`hostnameResult = none`), base-field
attachment sets the `hostname` field to the literal `"unknown"`; the lookup
error is never propagated (the function is total, returning a `ZapLogger`
with no error component). -/
theorem hostname_fallback_unknown
    (env : String → String) (pid : Int) (logger : ZapLogger) :
    ("hostname", FieldVal.str "unknown") ∈
      (attachBaseFields env none pid logger).fields := by
  simp only [attachBaseFields, loggerWith, zapStr, zapInt]
  split_ifs <;> simp

/-- C10: with `WG_CLOUD_PROJECT_ID` non-empty and `WG_CLOUD_DEPLOYMENT_ID`
unset or empty, a non-pretty logger carries a `deploymentID` field whose
value is the empty string: the field is emitted, not suppressed, because
the gate tests `projectID`. -/
theorem deploymentID_empty_emitted_when_projectID_set
    (env : String → String) (hostnameResult : Option String) (pid : Int)
    (debug : Bool) (level : Int)
    (hproj : env WgCloudProjectID ≠ "")
    (hdep : env WgCloudDeploymentID = "") :
    ("deploymentID", FieldVal.str "") ∈
      (New env hostnameResult pid false debug level).fields := by
  simp only [New, newZapLogger, attachBaseFields, loggerWith, zapStr, zapInt,
    hdep, Bool.false_eq_true, if_false, ne_eq, if_pos hproj]
  split_ifs <;> simp [hproj]

/-- Underfueled or not, `log2fuel` never overshoots: `2 ^ log2fuel fuel n`
is at most `n` for positive `n`. -/
theorem log2fuel_pow_le : ∀ (fuel n : ℕ), 1 ≤ n → 2 ^ log2fuel fuel n ≤ n := by
  intro fuel
  induction fuel with
  | zero => intro n hn; simpa [log2fuel] using hn
  | succ fuel ih =>
    intro n hn
    by_cases h : n ≤ 1
    · simpa [log2fuel, h] using hn
    · have hn2 : 1 ≤ n / 2 := by omega
      have hrec := ih (n / 2) hn2
      simp only [log2fuel, if_neg h]
      rw [pow_succ]
      omega

set_option maxRecDepth 4000 in
/-- Rounding the scaled quotient `a * P / 10^6` to the nearest integer and
scaling back down by `P` agrees with plain truncated division by `10^6`
whenever the scale exceeds half the divisor: rounding up can only cross a
multiple of `P` when the quotient is within half a unit of it, which forces
`P` to divide a positive remainder gap of at most `500000`. -/
theorem rte_mul_div (a P : ℕ) (hP : 500000 < P) :
    rte (a * P) 1000000 / P = a / 1000000 := by
  have hP0 : 0 < P := by omega
  have hq : a * P / 1000000 / P = a / 1000000 := by
    rw [Nat.div_div_eq_div_mul]
    exact Nat.mul_div_mul_right a 1000000 hP0
  simp only [rte]
  have hmod : 1000000 * (a * P / 1000000) + a * P % 1000000 = a * P :=
    Nat.div_add_mod (a * P) 1000000
  have hr_lt : a * P % 1000000 < 1000000 := Nat.mod_lt _ (by norm_num)
  have succ_case : 1000000 ≤ 2 * (a * P % 1000000) →
      (a * P / 1000000 + 1) / P = a / 1000000 := by
    intro h2r
    have hnotdvd : ¬ P ∣ a * P / 1000000 + 1 := by
      rintro ⟨t, ht⟩
      have key : (P : ℤ) ∣ ((1000000 : ℤ) - (a * P % 1000000 : ℕ)) := by
        refine ⟨1000000 * t - a, ?_⟩
        have hmodZ : (1000000 : ℤ) * ((a * P / 1000000 : ℕ) : ℤ) +
            ((a * P % 1000000 : ℕ) : ℤ) = (a : ℤ) * P := by exact_mod_cast hmod
        have htZ : ((a * P / 1000000 : ℕ) : ℤ) + 1 = (P : ℤ) * t := by
          exact_mod_cast ht
        linear_combination 1000000 * htZ - hmodZ
      have h1 : ((a * P % 1000000 : ℕ) : ℤ) < 1000000 := by exact_mod_cast hr_lt
      have hle : (P : ℤ) ≤ (1000000 : ℤ) - (a * P % 1000000 : ℕ) :=
        Int.le_of_dvd (by omega) key
      have h2 : (1000000 : ℤ) ≤ 2 * ((a * P % 1000000 : ℕ) : ℤ) := by
        exact_mod_cast h2r
      have h3 : (500000 : ℤ) < (P : ℤ) := by exact_mod_cast hP
      omega
    rw [Nat.succ_div, if_neg hnotdvd]
    simpa using hq
  split_ifs with h1 h2 h3
  · exact hq
  · exact succ_case (by omega)
  · exact hq
  · exact succ_case (by omega)

/-- For `a` below `2^53`, the binary64 exponent of the quotient `a / 10^6`
is at most `33`. -/
theorem floorLog2_div_le33 (a : ℕ) (ha : a < 2 ^ 53) (hge : 1000000 ≤ a) :
    floorLog2 (a / 1000000) ≤ 33 := by
  by_contra hgt
  push_neg at hgt
  have h1 : 1 ≤ a / 1000000 := by omega
  have h2 : 2 ^ floorLog2 (a / 1000000) ≤ a / 1000000 := by
    rw [floorLog2]; exact log2fuel_pow_le _ _ h1
  have h3 : (2 : ℕ) ^ 34 ≤ 2 ^ floorLog2 (a / 1000000) :=
    Nat.pow_le_pow_right (by norm_num) hgt
  have h4 : a / 1000000 < 2 ^ 34 := by
    have h5 : a < 2 ^ 53 := ha
    norm_num at h5 ⊢
    omega
  omega

/-- For magnitudes below `2^53` the float64 division-and-truncate agrees
with exact truncated division by `10^6`: the quotient's ulp is below
`2^-19`, so correct rounding cannot cross a millisecond boundary, whose
distance is at least `10^-6 > 2^-20`. -/
theorem truncFdivPos_eq_div (a : ℕ) (ha : a < 2 ^ 53) :
    truncFdivPos a 1000000 = a / 1000000 := by
  simp only [truncFdivPos]
  split_ifs with h0 hlt hround hle
  · subst h0; simp
  · exfalso
    norm_num at hround
    omega
  · exact (Nat.div_eq_of_lt hlt).symm
  · apply rte_mul_div
    have h33 : floorLog2 (a / 1000000) ≤ 33 := floorLog2_div_le33 a ha (by omega)
    have h19 : 19 ≤ 52 - floorLog2 (a / 1000000) := by omega
    calc (500000 : ℕ) < 2 ^ 19 := by norm_num
      _ ≤ 2 ^ (52 - floorLog2 (a / 1000000)) :=
        Nat.pow_le_pow_right (by norm_num) h19
  · exfalso
    have h33 : floorLog2 (a / 1000000) ≤ 33 := floorLog2_div_le33 a ha (by omega)
    omega

/-- C4 counterexample: at the nanosecond timestamp `9007199254999999`
(about 104 days after the epoch, the smallest failing value) the emitted
millisecond value is `9007199255`, not the truncated `9007199254`: the
int64-to-float64 conversion rounds the nanosecond count up across the
millisecond boundary before `math.Trunc` runs, so the emitted value is the
truncation plus one, contradicting the claim that the value is truncated
and never rounded up for every nanosecond value. -/
theorem encodeTimeMillis_rounds_up_counterexample :
    encodeTimeMillis 9007199254999999 = 9007199255 ∧
    Int.tdiv 9007199254999999 1000000 = 9007199254 ∧
    encodeTimeMillis 9007199254999999 ≠
      Int.tdiv 9007199254999999 1000000 := by
  refine ⟨by decide, by decide, by decide⟩

/-- C4 (amended): for every nanosecond timestamp of magnitude below `2^53`,
the emitted time value equals the nanosecond count divided by `1000000`
truncated toward zero; for larger magnitudes (reachable from mid-1970
onward) the float64 conversion inside the encoder can round up across a
millisecond boundary, as the counterexample shows. -/
theorem encodeTimeMillis_truncates_small (nanos : Int)
    (h : nanos.natAbs < 2 ^ 53) :
    encodeTimeMillis nanos = Int.tdiv nanos 1000000 := by
  cases nanos with
  | ofNat m =>
    have hm : (Int.ofNat m).natAbs = m := rfl
    rw [hm] at h
    simp only [encodeTimeMillis, hm]
    rw [show roundNat53 m = m from if_pos h]
    rw [truncFdivPos_eq_div m h]
    rw [if_neg (by exact Int.not_lt.mpr (Int.ofNat_nonneg m))]
    rfl
  | negSucc k =>
    have hm : (Int.negSucc k).natAbs = k + 1 := rfl
    rw [hm] at h
    simp only [encodeTimeMillis, hm]
    rw [show roundNat53 (k + 1) = k + 1 from if_pos h]
    rw [truncFdivPos_eq_div (k + 1) h]
    rw [if_pos (Int.negSucc_lt_zero k)]
    rfl

/-- Witness for the amended C4 at the spec's example: `1500499` nanoseconds
truncates down to `1` millisecond. -/
theorem encodeTimeMillis_truncates_small_witness :
    (1500499 : Int).natAbs < 2 ^ 53 ∧
    encodeTimeMillis 1500499 = Int.tdiv 1500499 1000000 ∧
    encodeTimeMillis 1500499 = 1 :=
  ⟨by decide, encodeTimeMillis_truncates_small 1500499 (by decide), by decide⟩

/-- Witness for C10 at a concrete environment where only the project
variable is set. -/
theorem deploymentID_empty_emitted_when_projectID_set_witness :
    envOnlyProject WgCloudProjectID ≠ "" ∧
    envOnlyProject WgCloudDeploymentID = "" ∧
    ("deploymentID", FieldVal.str "") ∈
      (New envOnlyProject (some "host-a") 42 false false 0).fields :=
  ⟨by decide, by decide,
    deploymentID_empty_emitted_when_projectID_set envOnlyProject
      (some "host-a") 42 false 0 (by decide) (by decide)⟩

end Logging
